import Mathlib

/-!
# Shallow embedding of the todo-app task lifecycle and persistence core

This file embeds, in Lean 4, the task data model, the storage adapter
(`LocalStorageTaskRepository`, in its validating variant found in the
repository) and the business-rule layer (`TaskService`) of the client-side
task list manager, and proves or refutes the frozen specification claims
about them.

Modelling conventions:
* A JavaScript `Date` restricted to millisecond precision is modelled by its
  UTC calendar fields (`DateTime`).  `Date.prototype.toISOString` and the
  ISO-8601 branch of the `Date` string parser are embedded as `toISOString`
  and `parseDate`; engine-specific non-ISO date formats are outside the model.
* `localStorage` together with `JSON.parse`/`JSON.stringify` is modelled at
  the parse-outcome level: the store (`Store`) holds either nothing, an empty
  string, an unparseable string, or a parsed JSON value (`JValue`);
  `JSON.stringify` of a produced value stores the value itself.  Thrown
  storage-access errors are modelled by dedicated store states.
* JavaScript exceptions become `Except String` results carrying the thrown
  `Error` message; the catch-and-rewrap structure of the source is mirrored
  by string concatenation on the error channel.
-/

set_option linter.unusedVariables false

namespace TodoApp

/-- A decimal digit rendered as a character, as JavaScript number-to-string
padding produces it.  Out-of-range inputs (which the source never feeds on
well-formed dates) yield a non-digit placeholder. -/
def digitChar (n : Nat) : Char :=
  if n < 10 then Char.ofNat (48 + n) else '?'

/-- Numeric value of a digit character (`charCodeAt - 48`). -/
def dv (c : Char) : Nat := c.toNat - 48

/-- Two-digit zero-padded rendering, as in `toISOString`. -/
def pad2 (n : Nat) : List Char := [digitChar (n / 10), digitChar (n % 10)]

/-- Three-digit zero-padded rendering (milliseconds in `toISOString`). -/
def pad3 (n : Nat) : List Char :=
  [digitChar (n / 100), digitChar (n / 10 % 10), digitChar (n % 10)]

/-- Four-digit zero-padded rendering (years in `toISOString`). -/
def pad4 (n : Nat) : List Char :=
  [digitChar (n / 1000), digitChar (n / 100 % 10), digitChar (n / 10 % 10),
    digitChar (n % 10)]

/-- A JavaScript `Date` instant at millisecond precision, given by its UTC
calendar fields (the information content of its `toISOString` rendering). -/
structure DateTime where
  year : Nat
  month : Nat
  day : Nat
  hour : Nat
  minute : Nat
  second : Nat
  ms : Nat
deriving DecidableEq, Repr

/-- Field ranges under which the ISO-8601 rendering is faithful: the ranges a
real `Date` value always satisfies. -/
def DateTime.Valid (d : DateTime) : Prop :=
  d.year ≤ 9999 ∧ 1 ≤ d.month ∧ d.month ≤ 12 ∧ 1 ≤ d.day ∧ d.day ≤ 31 ∧
    d.hour ≤ 23 ∧ d.minute ≤ 59 ∧ d.second ≤ 59 ∧ d.ms ≤ 999

instance (d : DateTime) : Decidable d.Valid := by
  unfold DateTime.Valid; infer_instance

/-- `Date.prototype.toISOString`: `YYYY-MM-DDTHH:MM:SS.mmmZ`. -/
def toISOString (d : DateTime) : String :=
  ⟨pad4 d.year ++ '-' :: pad2 d.month ++ '-' :: pad2 d.day ++
    'T' :: pad2 d.hour ++ ':' :: pad2 d.minute ++ ':' :: pad2 d.second ++
    '.' :: pad3 d.ms ++ ['Z']⟩

/-- The ISO-8601 UTC millisecond branch of `new Date(string)`: accepts exactly
the 24-character `YYYY-MM-DDTHH:MM:SS.mmmZ` shape with in-range fields and
returns the instant, `none` standing for an Invalid Date (`NaN` time value). -/
def parseDate (s : String) : Option DateTime :=
  match s.data with
  | [y1, y2, y3, y4, '-', mo1, mo2, '-', d1, d2, 'T', h1, h2, ':', mi1, mi2,
      ':', se1, se2, '.', x1, x2, x3, 'Z'] =>
    if y1.isDigit ∧ y2.isDigit ∧ y3.isDigit ∧ y4.isDigit ∧ mo1.isDigit ∧
        mo2.isDigit ∧ d1.isDigit ∧ d2.isDigit ∧ h1.isDigit ∧ h2.isDigit ∧
        mi1.isDigit ∧ mi2.isDigit ∧ se1.isDigit ∧ se2.isDigit ∧
        x1.isDigit ∧ x2.isDigit ∧ x3.isDigit then
      let year := dv y1 * 1000 + dv y2 * 100 + dv y3 * 10 + dv y4
      let month := dv mo1 * 10 + dv mo2
      let day := dv d1 * 10 + dv d2
      let hour := dv h1 * 10 + dv h2
      let minute := dv mi1 * 10 + dv mi2
      let second := dv se1 * 10 + dv se2
      let ms := dv x1 * 100 + dv x2 * 10 + dv x3
      if 1 ≤ month ∧ month ≤ 12 ∧ 1 ≤ day ∧ day ≤ 31 ∧ hour ≤ 23 ∧
          minute ≤ 59 ∧ second ≤ 59 then
        some ⟨year, month, day, hour, minute, second, ms⟩
      else none
    else none
  | _ => none

theorem isDigit_digitChar {n : Nat} (h : n < 10) :
    (digitChar n).isDigit = true := by
  interval_cases n <;> decide

theorem dv_digitChar {n : Nat} (h : n < 10) : dv (digitChar n) = n := by
  interval_cases n <;> decide

theorem not_isDigit_digitChar {n : Nat} (h : 10 ≤ n) :
    (digitChar n).isDigit = false := by
  unfold digitChar
  rw [if_neg (by omega)]
  decide

theorem digit_of_isDigit_digitChar {n : Nat}
    (h : (digitChar n).isDigit = true) : n < 10 := by
  by_contra hn
  rw [not_isDigit_digitChar (by omega)] at h
  exact Bool.false_ne_true h

theorem recompose2 {n : Nat} (h : n ≤ 99) :
    dv (digitChar (n / 10)) * 10 + dv (digitChar (n % 10)) = n := by
  rw [dv_digitChar (by omega), dv_digitChar (by omega)]; omega

theorem recompose3 {n : Nat} (h : n ≤ 999) :
    dv (digitChar (n / 100)) * 100 + dv (digitChar (n / 10 % 10)) * 10 +
      dv (digitChar (n % 10)) = n := by
  rw [dv_digitChar (by omega), dv_digitChar (by omega),
    dv_digitChar (by omega)]; omega

theorem recompose4 {n : Nat} (h : n ≤ 9999) :
    dv (digitChar (n / 1000)) * 1000 + dv (digitChar (n / 100 % 10)) * 100 +
      dv (digitChar (n / 10 % 10)) * 10 + dv (digitChar (n % 10)) = n := by
  rw [dv_digitChar (by omega), dv_digitChar (by omega),
    dv_digitChar (by omega), dv_digitChar (by omega)]; omega

/-- Parsing the rendered ISO string recovers exactly the original fields, and
succeeds exactly when the fields are in range. -/
theorem parseDate_toISOString (d : DateTime) :
    parseDate (toISOString d) = if d.Valid then some d else none := by
  obtain ⟨y, mo, dy, h, mi, se, ms⟩ := d
  simp only [toISOString, pad4, pad2, pad3, List.cons_append, List.nil_append,
    parseDate]
  by_cases hv : DateTime.Valid ⟨y, mo, dy, h, mi, se, ms⟩
  · rw [if_pos hv]
    simp only [DateTime.Valid] at hv
    obtain ⟨h1, h2, h3, h4, h5, h6, h7, h8, h9⟩ := hv
    rw [if_pos (by
      refine ⟨?_, ?_, ?_, ?_, ?_, ?_, ?_, ?_, ?_, ?_, ?_, ?_, ?_, ?_, ?_,
        ?_, ?_⟩ <;> exact isDigit_digitChar (by omega))]
    rw [recompose4 (show y ≤ 9999 by omega),
      recompose2 (show mo ≤ 99 by omega), recompose2 (show dy ≤ 99 by omega),
      recompose2 (show h ≤ 99 by omega), recompose2 (show mi ≤ 99 by omega),
      recompose2 (show se ≤ 99 by omega), recompose3 (show ms ≤ 999 by omega)]
    rw [if_pos (show 1 ≤ mo ∧ mo ≤ 12 ∧ 1 ≤ dy ∧ dy ≤ 31 ∧ h ≤ 23 ∧
      mi ≤ 59 ∧ se ≤ 59 by omega)]
  · rw [if_neg hv]
    simp only [DateTime.Valid, not_and_or] at hv
    by_cases hd : y / 1000 < 10 ∧ mo / 10 < 10 ∧ dy / 10 < 10 ∧ h / 10 < 10 ∧
        mi / 10 < 10 ∧ se / 10 < 10 ∧ ms / 100 < 10
    · obtain ⟨d1, d2, d3, d4, d5, d6, d7⟩ := hd
      rw [if_pos (by
        refine ⟨?_, ?_, ?_, ?_, ?_, ?_, ?_, ?_, ?_, ?_, ?_, ?_, ?_, ?_, ?_,
          ?_, ?_⟩ <;> exact isDigit_digitChar (by omega))]
      rw [recompose2 (show mo ≤ 99 by omega),
        recompose2 (show dy ≤ 99 by omega), recompose2 (show h ≤ 99 by omega),
        recompose2 (show mi ≤ 99 by omega),
        recompose2 (show se ≤ 99 by omega)]
      rw [if_neg (show ¬(1 ≤ mo ∧ mo ≤ 12 ∧ 1 ≤ dy ∧ dy ≤ 31 ∧ h ≤ 23 ∧
        mi ≤ 59 ∧ se ≤ 59) by
          intro hc
          rcases hv with hv | hv | hv | hv | hv | hv | hv | hv | hv <;> omega)]
    · rw [if_neg (show ¬_ by
        intro hc
        obtain ⟨c1, c2, c3, c4, c5, c6, c7, c8, c9, c10, c11, c12, c13, c14,
          c15, c16, c17⟩ := hc
        simp only [not_and_or, not_lt] at hd
        rcases hd with hd | hd | hd | hd | hd | hd | hd
        · exact absurd c1 (by rw [not_isDigit_digitChar hd]; decide)
        · exact absurd c5 (by rw [not_isDigit_digitChar hd]; decide)
        · exact absurd c7 (by rw [not_isDigit_digitChar hd]; decide)
        · exact absurd c9 (by rw [not_isDigit_digitChar hd]; decide)
        · exact absurd c11 (by rw [not_isDigit_digitChar hd]; decide)
        · exact absurd c13 (by rw [not_isDigit_digitChar hd]; decide)
        · exact absurd c15 (by rw [not_isDigit_digitChar hd]; decide))]

/-- The `Task` entity (`src/models/Task.ts`): `id`, `text`, `completed`,
`createdAt`. -/
structure Task where
  id : String
  text : String
  completed : Bool
  createdAt : DateTime
deriving DecidableEq, Repr

/-- `Partial<Task>`: an update record in which each field is optionally
present.  A `none` field is absent from the JavaScript object literal. -/
structure TaskUpdates where
  id : Option String := none
  text : Option String := none
  completed : Option Bool := none
  createdAt : Option DateTime := none
deriving DecidableEq, Repr

/-- The object-spread merge `{ ...task, ...updates }`: every field present in
`updates` overwrites, every absent field keeps the prior value. -/
def mergeTask (t : Task) (u : TaskUpdates) : Task :=
  ⟨u.id.getD t.id, u.text.getD t.text, u.completed.getD t.completed,
    u.createdAt.getD t.createdAt⟩

/-- A parsed JSON value, the result of a successful `JSON.parse`.  Objects are
modelled with their key/value pairs in order and without duplicate keys (as
`JSON.stringify` produces them). -/
inductive JValue where
  | null
  | bool (b : Bool)
  | num (n : Int)
  | str (s : String)
  | arr (elems : List JValue)
  | obj (fields : List (String × JValue))

/-- Property access `v[k]` on a parsed JSON value: `none` models
`undefined`. -/
def JValue.getField : JValue → String → Option JValue
  | .obj fields, k => fields.lookup k
  | _, _ => none

/-- `typeof v === 'object' && v !== null` for a parsed JSON value (arrays are
objects in JavaScript; `null` is excluded by the explicit check). -/
def JValue.isJSObject : JValue → Bool
  | .obj _ => true
  | .arr _ => true
  | _ => false

/-- The `localStorage` slot under the fixed key `todoApp_tasks`, seen through
`localStorage.getItem` and `JSON.parse`:
* `absent` — no value stored (`getItem` returns `null`);
* `emptyStr` — the empty string is stored (falsy, caught by `!storedData`);
* `unparseable` — a string on which `JSON.parse` throws a `SyntaxError`
  (e.g. the literal `"invalid json"`, or a blank non-empty string);
* `parsed v` — a string whose `JSON.parse` yields `v`;
* `accessSecurityError` — `getItem` throws an `Error` whose message contains
  `SecurityError`;
* `accessOtherError` — `getItem` throws some other transient `Error`. -/
inductive Store where
  | absent
  | emptyStr
  | unparseable
  | parsed (v : JValue)
  | accessSecurityError
  | accessOtherError

namespace LocalStorageTaskRepository

/-- `serializeTask`: render one task as a flat JSON record, `createdAt` as its
ISO-8601 string. -/
def serializeTask (t : Task) : JValue :=
  .obj [("id", .str t.id), ("text", .str t.text),
    ("completed", .bool t.completed),
    ("createdAt", .str (toISOString t.createdAt))]

/-- `typeof v[k] === 'string'`: the property's value when it is a string. -/
def strField (v : JValue) (k : String) : Option String :=
  match v.getField k with
  | some (.str s) => some s
  | _ => none

/-- `typeof v[k] === 'boolean'`: the property's value when it is a boolean. -/
def boolField (v : JValue) (k : String) : Option Bool :=
  match v.getField k with
  | some (.bool b) => some b
  | _ => none

/-- `isValidStoredTask`: structural validation of one stored record — an
object whose `id`, `text`, `createdAt` are present as non-empty strings and
whose `completed` is present as a boolean. -/
def isValidStoredTask (v : JValue) : Bool :=
  v.isJSObject
    && (strField v "id").elim false (fun s => decide (0 < s.length))
    && (strField v "text").elim false (fun s => decide (0 < s.length))
    && (boolField v "completed").isSome
    && (strField v "createdAt").elim false (fun s => decide (0 < s.length))

/-- `deserializeTask`: validate the stored record's structure, parse its
`createdAt`, and build the `Task`.  `none` models the thrown
`INVALID_TASK_STRUCTURE` / `INVALID_DATE` errors, which `getTasks` catches
per element. -/
def deserializeTask (v : JValue) : Option Task :=
  if isValidStoredTask v then
    match strField v "id", strField v "text", boolField v "completed",
        strField v "createdAt" with
    | some i, some tx, some c, some ca =>
      match parseDate ca with
      | some dt => some ⟨i, tx, c, dt⟩
      | none => none
    | _, _, _, _ => none
  else none

/-- `isValidTask`: post-deserialization validation.  The source's checks that
`completed` is a boolean and `createdAt` an `instanceof Date` with non-`NaN`
time value hold by type in this embedding; the remaining checks are the
non-emptiness of `id` and `text`. -/
def isValidTask (t : Task) : Bool :=
  decide (0 < t.id.length) && decide (0 < t.text.length)

/-- `getTasks`: read the stored blob; return `[]` for missing, empty,
unparseable or non-array data and for transient access errors; rethrow
security errors; otherwise deserialize element-wise, silently dropping every
invalid element. -/
def getTasks : Store → Except String (List Task)
  | .absent => .ok []
  | .emptyStr => .ok []
  | .unparseable => .ok []
  | .accessOtherError => .ok []
  | .accessSecurityError =>
    .error "Failed to load tasks from localStorage: SecurityError: access denied"
  | .parsed v =>
    match v with
    | .arr elems =>
      .ok (elems.filterMap fun e =>
        match deserializeTask e with
        | some t => if isValidTask t then some t else none
        | none => none)
    | _ => .ok []

/-- `saveTasks`: serialize the collection and store it (`JSON.stringify` of
the serialized records, modelled at the parsed-value level). -/
def saveTasks (tasks : List Task) : Store :=
  .parsed (.arr (tasks.map serializeTask))

/-- `addTask`: read, append, write back, return the task; wrap any error. -/
def addTask (st : Store) (task : Task) : Except String Task × Store :=
  match getTasks st with
  | .error e => (.error ("Failed to add task: " ++ e), st)
  | .ok tasks => (.ok task, saveTasks (tasks ++ [task]))

/-- `findIndex` + in-place replacement of the first task whose `id` matches,
returning the merged task and the new collection. -/
def updateFirst (ts : List Task) (id : String) (u : TaskUpdates) :
    Option (Task × List Task) :=
  match ts with
  | [] => none
  | t :: rest =>
    if t.id == id then some (mergeTask t u, mergeTask t u :: rest)
    else
      match updateFirst rest id u with
      | some (ut, rest') => some (ut, t :: rest')
      | none => none

/-- `updateTask`: read, locate by `id` (first match), spread-merge the given
fields, write back, return the merged task; not-found and read errors are
wrapped with `Failed to update task`. -/
def updateTask (st : Store) (id : String) (updates : TaskUpdates) :
    Except String Task × Store :=
  match getTasks st with
  | .error e => (.error ("Failed to update task: " ++ e), st)
  | .ok tasks =>
    match updateFirst tasks id updates with
    | none =>
      (.error ("Failed to update task: Task with id " ++ id ++ " not found"),
        st)
    | some (ut, tasks') => (.ok ut, saveTasks tasks')

/-- `deleteTask`: read, drop every task whose `id` matches, fail if nothing
was dropped, write back otherwise; errors wrapped with
`Failed to delete task`. -/
def deleteTask (st : Store) (id : String) : Except String Unit × Store :=
  match getTasks st with
  | .error e => (.error ("Failed to delete task: " ++ e), st)
  | .ok tasks =>
    let filteredTasks := tasks.filter fun t => t.id != id
    if filteredTasks.length = tasks.length then
      (.error ("Failed to delete task: Task with id " ++ id ++ " not found"),
        st)
    else
      (.ok (), saveTasks filteredTasks)

end LocalStorageTaskRepository

namespace TaskService

open LocalStorageTaskRepository

/-- `String.prototype.trim` whitespace, restricted to the ASCII whitespace
characters relevant to the embedding. -/
def jsWhitespace (c : Char) : Bool :=
  decide (c = ' ' ∨ c = '\t' ∨ c = '\n' ∨ c = '\r')

/-- `String.prototype.trim`: strip leading and trailing whitespace. -/
def jsTrim (s : String) : String :=
  ⟨((s.data.dropWhile jsWhitespace).reverse.dropWhile jsWhitespace).reverse⟩

/-- `validateTaskText`: `some message` models the thrown `ValidationError`.
The trimmed text must be non-empty (`MIN_LENGTH = 1`); the original untrimmed
text must not exceed `MAX_LENGTH = 500` characters. -/
def validateTaskText (text : String) : Option String :=
  if (jsTrim text).length < 1 then some "Task text cannot be empty"
  else if text.length > 500 then
    some "Task text cannot exceed 500 characters"
  else none

/-- `TaskService.addTask`: validate, then construct
`TaskModel(generateTaskId(), text.trim())` — `completed` defaults to `false`,
`createdAt` to the current time — and delegate to the repository.  The fresh
id and the current instant are inputs of the embedding. -/
def addTask (st : Store) (text : String) (freshId : String) (now : DateTime) :
    Except String Task × Store :=
  match validateTaskText text with
  | some msg => (.error msg, st)
  | none =>
    LocalStorageTaskRepository.addTask st ⟨freshId, jsTrim text, false, now⟩

/-- `TaskService.toggleTask`: read the collection, find the task, fail if
absent, otherwise update with `{ completed: !task.completed }`. -/
def toggleTask (st : Store) (id : String) : Except String Task × Store :=
  match getTasks st with
  | .error e => (.error e, st)
  | .ok tasks =>
    match tasks.find? (fun t => t.id == id) with
    | none => (.error ("Task with id " ++ id ++ " not found"), st)
    | some task =>
      updateTask st id ⟨none, none, some (!task.completed), none⟩

/-- `TaskService.getFilteredTasks`: a pure view over `getTasks()`.  The
`switch` sends `"active"` to the incomplete tasks, `"completed"` to the
completed ones, and both `"all"` and any unrecognized value (the `default`
arm) to the full sequence. -/
def getFilteredTasks (st : Store) (filter : String) :
    Except String (List Task) :=
  match getTasks st with
  | .error e => .error e
  | .ok tasks =>
    if filter = "active" then .ok (tasks.filter fun t => !t.completed)
    else if filter = "completed" then .ok (tasks.filter fun t => t.completed)
    else .ok tasks

end TaskService

deriving instance DecidableEq for Except

namespace LocalStorageTaskRepository

theorem length_toISOString (d : DateTime) : (toISOString d).length = 24 := rfl

/-- Derived condition under which one task survives the storage adapter's
serialize-validate-deserialize cycle. -/
def persistable (t : Task) : Bool :=
  decide (0 < t.id.length ∧ 0 < t.text.length ∧ t.createdAt.Valid)

theorem deserializeTask_serializeTask (t : Task) :
    deserializeTask (serializeTask t) =
      if 0 < t.id.length ∧ 0 < t.text.length ∧ t.createdAt.Valid then some t
      else none := by
  obtain ⟨i, tx, c, ca⟩ := t
  simp [deserializeTask, serializeTask, isValidStoredTask, strField,
    boolField, JValue.getField, JValue.isJSObject, List.lookup,
    parseDate_toISOString, length_toISOString]
  by_cases hv : ca.Valid <;> by_cases hi : 0 < i.length <;>
    by_cases ht : 0 < tx.length <;> simp [hv, hi, ht]

/-- Reading back a just-written collection returns exactly its persistable
tasks, in order. -/
theorem getTasks_saveTasks (ts : List Task) :
    getTasks (saveTasks ts) = .ok (ts.filter persistable) := by
  simp only [getTasks, saveTasks]
  congr 1
  rw [List.filterMap_map]
  induction ts with
  | nil => rfl
  | cons t rest ih =>
    simp only [List.filterMap_cons, List.filter_cons, Function.comp_apply]
    rw [deserializeTask_serializeTask]
    by_cases hp : 0 < t.id.length ∧ 0 < t.text.length ∧ t.createdAt.Valid
    · have hvt : isValidTask t = true := by
        simp [isValidTask, hp.1, hp.2.1]
      have hpt : persistable t = true := by
        simp only [persistable, decide_eq_true_eq]; exact hp
      rw [if_pos hp]
      simp only [hvt, if_true, hpt, ih]
    · have hpt : persistable t = false := by
        simp only [persistable, decide_eq_false_iff_not]; exact hp
      rw [if_neg hp]
      simp only [hpt, ih, Bool.false_eq_true, if_false]

theorem updateFirst_eq_none_iff (ts : List Task) (i : String)
    (u : TaskUpdates) : updateFirst ts i u = none ↔ ∀ t ∈ ts, t.id ≠ i := by
  induction ts with
  | nil => simp [updateFirst]
  | cons t rest ih =>
    simp only [updateFirst, beq_iff_eq]
    by_cases h : t.id = i
    · simp [h]
    · rcases hrest : updateFirst rest i u with _ | ⟨ut, rest'⟩ <;>
        simp_all [hrest]

/-- A successful `find?` locates the first match and determines the behavior
of the find-index-and-replace step of `updateTask`. -/
theorem updateFirst_of_find? (ts : List Task) (i : String) (u : TaskUpdates)
    (t : Task) (h : ts.find? (fun x => x.id == i) = some t) :
    ∃ pre post, ts = pre ++ t :: post ∧ (∀ x ∈ pre, x.id ≠ i) ∧ t.id = i ∧
      updateFirst ts i u = some (mergeTask t u, pre ++ mergeTask t u :: post) := by
  induction ts with
  | nil => simp at h
  | cons x rest ih =>
    by_cases hx : x.id = i
    · rw [List.find?_cons_of_pos _ (by simp [hx])] at h
      cases h
      exact ⟨[], rest, rfl, by simp, hx, by simp [updateFirst, hx]⟩
    · rw [List.find?_cons_of_neg _ (by simp [hx])] at h
      obtain ⟨pre, post, hts, hpre, hid, hupd⟩ := ih h
      exact ⟨x :: pre, post, by simp [hts], by simp_all, hid,
        by simp [updateFirst, hx, hupd]⟩

end LocalStorageTaskRepository

open LocalStorageTaskRepository

/-- Concrete fixtures used by witnesses. -/
def sampleDate : DateTime := ⟨2024, 1, 15, 10, 30, 0, 123⟩

def taskA : Task := ⟨"a", "Buy milk", false, sampleDate⟩

def taskB : Task := ⟨"b", "Walk dog", true, sampleDate⟩

def taskA2 : Task := ⟨"a", "Duplicate id", true, sampleDate⟩

/-- C3: `getTasks` returns an empty sequence, without an error, when the key
is absent, the stored value is empty, the value is unparseable (e.g. the
literal `invalid json`), it parses to `null` or an empty array or any
non-array value, or the store fails transiently; a security-signalling access
failure is instead rethrown as a read error. -/
theorem c3_getTasks_graceful_empty :
    getTasks .absent = .ok [] ∧
    getTasks .emptyStr = .ok [] ∧
    getTasks .unparseable = .ok [] ∧
    getTasks (.parsed .null) = .ok [] ∧
    getTasks (.parsed (.arr [])) = .ok [] ∧
    getTasks .accessOtherError = .ok [] ∧
    (∀ v : JValue, (∀ xs, v ≠ .arr xs) → getTasks (.parsed v) = .ok []) ∧
    ∃ msg, getTasks .accessSecurityError = .error msg := by
  refine ⟨rfl, rfl, rfl, rfl, rfl, rfl, ?_, ⟨_, rfl⟩⟩
  intro v hv
  cases v <;> first | rfl | exact absurd rfl (hv _)

/-- Witness for C3 at a concrete non-array stored value. -/
theorem c3_witness : getTasks (.parsed (.str "not an array")) = .ok [] :=
  c3_getTasks_graceful_empty.2.2.2.2.2.2.1 (.str "not an array")
    (fun _ h => JValue.noConfusion h)

/-- C6: deleting an id absent from the current collection fails with the
not-found error and performs no write: the stored value is returned
unchanged. -/
theorem c6_deleteTask_not_found (st : Store) (tasks : List Task) (i : String)
    (hread : getTasks st = .ok tasks) (habsent : ∀ t ∈ tasks, t.id ≠ i) :
    deleteTask st i =
      (.error ("Failed to delete task: Task with id " ++ i ++ " not found"),
        st) := by
  simp only [deleteTask, hread]
  rw [List.filter_eq_self.mpr (fun t ht => by simpa using habsent t ht),
    if_pos rfl]

/-- Witness for C6: deleting id `zzz` from a store holding only `taskA`. -/
theorem c6_witness :
    getTasks (saveTasks [taskA]) = .ok [taskA] ∧
    deleteTask (saveTasks [taskA]) "zzz" =
      (.error ("Failed to delete task: Task with id " ++ "zzz" ++
        " not found"), saveTasks [taskA]) :=
  ⟨by decide, c6_deleteTask_not_found (saveTasks [taskA]) [taskA] "zzz"
    (by decide) (by decide)⟩

/-- C10: when several stored tasks share the argument id, one `deleteTask`
call removes every one of them — the write-back is the filter keeping exactly
the non-matching tasks in their relative order. -/
theorem c10_deleteTask_removes_all_matches (st : Store) (tasks : List Task)
    (i : String) (hread : getTasks st = .ok tasks)
    (hdup : 1 < (tasks.filter fun t => t.id == i).length) :
    deleteTask st i =
      (.ok (), saveTasks (tasks.filter fun t => t.id != i)) := by
  simp only [deleteTask, hread]
  rw [if_neg ?hne]
  case hne =>
    intro hlen
    have hall := List.filter_length_eq_length.mp hlen
    have hmem : ∃ t ∈ tasks, t.id = i := by
      have hne : tasks.filter (fun t => t.id == i) ≠ [] := by
        intro h0
        rw [h0] at hdup
        simp at hdup
      obtain ⟨t, ht⟩ := List.exists_mem_of_ne_nil _ hne
      have hm := List.mem_filter.mp ht
      exact ⟨t, hm.1, by simpa using hm.2⟩
    obtain ⟨t, htmem, hti⟩ := hmem
    have := hall t htmem
    simp [hti] at this

/-- Witness for C10: two tasks with id `a` and one with id `b`; both `a`
tasks go, `taskB` stays. -/
theorem c10_witness :
    getTasks (saveTasks [taskA, taskB, taskA2]) = .ok [taskA, taskB, taskA2] ∧
    1 < (([taskA, taskB, taskA2].filter fun t => t.id == "a").length) ∧
    deleteTask (saveTasks [taskA, taskB, taskA2]) "a" =
      (.ok (), saveTasks ([taskA, taskB, taskA2].filter fun t =>
        t.id != "a")) :=
  ⟨by decide, by decide,
    c10_deleteTask_removes_all_matches (saveTasks [taskA, taskB, taskA2])
      [taskA, taskB, taskA2] "a" (by decide) (by decide)⟩

/-- C8: filtering is a pure view over `getTasks()`: `active` keeps the
incomplete tasks, `completed` the completed ones, and `all` as well as any
unrecognized filter string returns the full sequence; the store is not
touched and the original order is preserved (the results are `filter` views
of the read sequence). -/
theorem c8_getFilteredTasks (st : Store) (tasks : List Task)
    (hread : getTasks st = .ok tasks) :
    TaskService.getFilteredTasks st "active" =
      .ok (tasks.filter fun t => !t.completed) ∧
    TaskService.getFilteredTasks st "completed" =
      .ok (tasks.filter fun t => t.completed) ∧
    TaskService.getFilteredTasks st "all" = .ok tasks ∧
    ∀ f : String, f ≠ "active" → f ≠ "completed" →
      TaskService.getFilteredTasks st f = .ok tasks := by
  refine ⟨?_, ?_, ?_, fun f h1 h2 => ?_⟩
  · simp [TaskService.getFilteredTasks, hread]
  · simp [TaskService.getFilteredTasks, hread]
  · simp [TaskService.getFilteredTasks, hread]
  · simp [TaskService.getFilteredTasks, hread, h1, h2]

/-- Refinement target for C1, written from the specification's words:
an element is kept iff `id` is present and a non-empty string, `text` is
present and a non-empty string, `completed` is present and a boolean, and
`createdAt` is present, non-empty, and parses to a valid instant; a kept
element yields the task with those field values. -/
def specDeserializeElement (v : JValue) : Option Task :=
  match strField v "id", strField v "text", boolField v "completed",
      strField v "createdAt" with
  | some i, some tx, some c, some ca =>
    match parseDate ca with
    | some dt =>
      if 0 < i.length ∧ 0 < tx.length ∧ 0 < ca.length then some ⟨i, tx, c, dt⟩
      else none
    | none => none
  | _, _, _, _ => none

theorem isJSObject_of_strField {v : JValue} {k : String} {s : String}
    (h : strField v k = some s) : v.isJSObject = true := by
  cases v <;> simp_all [strField, JValue.getField, JValue.isJSObject]

/-- The per-element step of `getTasks` (deserialize, then keep only valid
tasks) agrees pointwise with the specification's per-element validation. -/
theorem element_step_eq_spec (v : JValue) :
    (match deserializeTask v with
      | some t => if isValidTask t then some t else none
      | none => none) = specDeserializeElement v := by
  rcases h1 : strField v "id" with _ | i
  · simp [deserializeTask, isValidStoredTask, specDeserializeElement, h1]
  rcases h2 : strField v "text" with _ | tx
  · simp [deserializeTask, isValidStoredTask, specDeserializeElement, h1, h2]
  rcases h3 : boolField v "completed" with _ | c
  · simp [deserializeTask, isValidStoredTask, specDeserializeElement, h1, h2,
      h3]
  rcases h4 : strField v "createdAt" with _ | ca
  · simp [deserializeTask, isValidStoredTask, specDeserializeElement, h1, h2,
      h3, h4]
  rcases hp : parseDate ca with _ | dt <;>
    by_cases hi : 0 < i.length <;> by_cases htx : 0 < tx.length <;>
      by_cases hca : 0 < ca.length <;>
        simp [deserializeTask, isValidStoredTask, specDeserializeElement,
          isValidTask, h1, h2, h3, h4, hp, hi, htx, hca,
          isJSObject_of_strField h1]

/-- The well-formed stored record of the C1 scenario. -/
def validRecord : JValue :=
  .obj [("id", .str "t1"), ("text", .str "Buy milk"),
    ("completed", .bool false),
    ("createdAt", .str "2024-01-15T10:30:00.123Z")]

/-- The C1 scenario's second record: `text` is missing. -/
def missingTextRecord : JValue :=
  .obj [("id", .str "t2"), ("completed", .bool true),
    ("createdAt", .str "2024-01-15T10:30:00.123Z")]

/-- C1: on any stored JSON array, `getTasks` validates each element
individually (id/text non-empty strings, completed boolean, createdAt
non-empty and parsing to a valid instant), silently drops every failing
element, and returns exactly the valid elements in stored order; in
particular one well-formed record next to one record missing `text` yields
exactly the well-formed task. -/
theorem c1_getTasks_element_validation :
    (∀ xs : List JValue, getTasks (.parsed (.arr xs)) =
      .ok (xs.filterMap specDeserializeElement)) ∧
    getTasks (.parsed (.arr [validRecord, missingTextRecord])) =
      .ok [⟨"t1", "Buy milk", false, ⟨2024, 1, 15, 10, 30, 0, 123⟩⟩] := by
  constructor
  · intro xs
    simp only [getTasks]
    congr 1
    exact List.filterMap_congr (fun v _ => element_step_eq_spec v)
  · decide

/-- Witness for C8 on a two-task store, with the unrecognized filter
`bogus`. -/
theorem c8_witness :
    getTasks (saveTasks [taskA, taskB]) = .ok [taskA, taskB] ∧
    TaskService.getFilteredTasks (saveTasks [taskA, taskB]) "active" =
      .ok [taskA] ∧
    TaskService.getFilteredTasks (saveTasks [taskA, taskB]) "bogus" =
      .ok [taskA, taskB] := by
  have h := c8_getFilteredTasks (saveTasks [taskA, taskB]) [taskA, taskB]
    (by decide)
  exact ⟨by decide, by rw [h.1]; decide,
    by rw [h.2.2.2 "bogus" (by decide) (by decide)]⟩

/-- C2 counterexample: the object-spread merge of `updateTask` overwrites
`id` and `createdAt` when they are present in the partial-fields argument, so
the claim's "never alters the task's id or createdAt" fails as stated. -/
theorem c2_counterexample :
    (updateTask (saveTasks [taskA]) "a" ⟨some "b", none, none, none⟩).1 =
      .ok ⟨"b", "Buy milk", false, sampleDate⟩ ∧
    ("b" : String) ≠ taskA.id ∧
    (updateTask (saveTasks [taskA]) "a"
        ⟨none, none, none, some ⟨2030, 2, 3, 4, 5, 6, 7⟩⟩).1 =
      .ok ⟨"a", "Buy milk", false, ⟨2030, 2, 3, 4, 5, 6, 7⟩⟩ ∧
    (⟨2030, 2, 3, 4, 5, 6, 7⟩ : DateTime) ≠ taskA.createdAt := by
  refine ⟨by decide, by decide, by decide, by decide⟩

/-- C2 (amended): on an existing task, `updateTask` merges by overwriting
exactly the fields present in the partial-fields argument — including `id`
and `createdAt` when present — keeps every absent field at its prior value,
writes the collection back with only the located task replaced, and returns
the merged task; `id` and `createdAt` are preserved whenever the argument
does not contain them (in particular when only `text` and `completed` are
updated). -/
theorem c2_updateTask_merge (st : Store) (tasks : List Task) (i : String)
    (u : TaskUpdates) (t : Task) (hread : getTasks st = .ok tasks)
    (hfind : tasks.find? (fun x => x.id == i) = some t) :
    (updateTask st i u).1 = .ok (mergeTask t u) ∧
    (∀ s, u.text = some s → (mergeTask t u).text = s) ∧
    (u.text = none → (mergeTask t u).text = t.text) ∧
    (∀ b, u.completed = some b → (mergeTask t u).completed = b) ∧
    (u.completed = none → (mergeTask t u).completed = t.completed) ∧
    (u.id = none → (mergeTask t u).id = t.id) ∧
    (u.createdAt = none → (mergeTask t u).createdAt = t.createdAt) ∧
    ∃ pre post, tasks = pre ++ t :: post ∧
      (updateTask st i u).2 = saveTasks (pre ++ mergeTask t u :: post) := by
  obtain ⟨pre, post, hts, hpre, hid, hupd⟩ :=
    updateFirst_of_find? tasks i u t hfind
  refine ⟨by simp [updateTask, hread, hupd],
    fun s hs => by simp [mergeTask, hs], fun hn => by simp [mergeTask, hn],
    fun b hb => by simp [mergeTask, hb], fun hn => by simp [mergeTask, hn],
    fun hn => by simp [mergeTask, hn], fun hn => by simp [mergeTask, hn],
    pre, post, hts, by simp [updateTask, hread, hupd]⟩

/-- Witness for C2's amended theorem: updating `text` and `completed` of
`taskB` preserves its `id` and `createdAt`. -/
theorem c2_witness :
    (updateTask (saveTasks [taskA, taskB]) "b"
        ⟨none, some "New", some false, none⟩).1 =
      .ok ⟨"b", "New", false, sampleDate⟩ := by
  have h := c2_updateTask_merge (saveTasks [taskA, taskB]) [taskA, taskB]
    "b" ⟨none, some "New", some false, none⟩ taskB (by decide) (by decide)
  rw [h.1]
  rfl

/-- C7: `toggleTask` fails with the not-found error (store untouched) when no
task has the id; otherwise it updates exactly the located task, negating its
`completed` and keeping `id`, `text`, `createdAt`, and returns the updated
task. -/
theorem c7_toggleTask (st : Store) (tasks : List Task) (i : String)
    (hread : getTasks st = .ok tasks) :
    ((∀ t ∈ tasks, t.id ≠ i) → TaskService.toggleTask st i =
      (.error ("Task with id " ++ i ++ " not found"), st)) ∧
    ∀ t, tasks.find? (fun x => x.id == i) = some t →
      (TaskService.toggleTask st i).1 =
        .ok ⟨t.id, t.text, !t.completed, t.createdAt⟩ ∧
      ∃ pre post, tasks = pre ++ t :: post ∧
        (TaskService.toggleTask st i).2 =
          saveTasks (pre ++ ⟨t.id, t.text, !t.completed, t.createdAt⟩ ::
            post) := by
  constructor
  · intro habs
    have hnone : tasks.find? (fun x => x.id == i) = none :=
      List.find?_eq_none.mpr (fun x hx => by simpa using habs x hx)
    simp [TaskService.toggleTask, hread, hnone]
  · intro t hfind
    obtain ⟨pre, post, hts, hpre, hid, hupd⟩ :=
      updateFirst_of_find? tasks i ⟨none, none, some (!t.completed), none⟩ t
        hfind
    have hm : mergeTask t ⟨none, none, some (!t.completed), none⟩ =
        ⟨t.id, t.text, !t.completed, t.createdAt⟩ := rfl
    refine ⟨?_, pre, post, hts, ?_⟩ <;>
      simp [TaskService.toggleTask, hread, hfind, updateTask, hupd, hm]

/-- Witness for C7: toggling `taskA` in a two-task store. -/
theorem c7_witness :
    (TaskService.toggleTask (saveTasks [taskA, taskB]) "a").1 =
      .ok ⟨"a", "Buy milk", true, sampleDate⟩ := by
  have h := (c7_toggleTask (saveTasks [taskA, taskB]) [taskA, taskB] "a"
    (by decide)).2 taskA (by decide)
  rw [h.1]
  rfl

/-- C5: `TaskService.addTask` rejects text that is empty after trimming and
text whose untrimmed length exceeds 500, in both cases before any storage
access (the store is returned unchanged whatever its state); on success it
stores and returns the task built from the trimmed text with
`completed = false` and `createdAt = now`. -/
theorem c5_addTask_validation (st : Store) (text freshId : String)
    (now : DateTime) :
    ((TaskService.jsTrim text).length = 0 →
      TaskService.addTask st text freshId now =
        (.error "Task text cannot be empty", st)) ∧
    (0 < (TaskService.jsTrim text).length → 500 < text.length →
      TaskService.addTask st text freshId now =
        (.error "Task text cannot exceed 500 characters", st)) ∧
    (∀ tasks, getTasks st = .ok tasks → 0 < (TaskService.jsTrim text).length →
      text.length ≤ 500 →
      TaskService.addTask st text freshId now =
        (.ok ⟨freshId, TaskService.jsTrim text, false, now⟩,
          saveTasks (tasks ++ [⟨freshId, TaskService.jsTrim text, false, now⟩]))) := by
  refine ⟨fun h0 => ?_, fun hpos hlong => ?_,
    fun tasks hread hpos hshort => ?_⟩
  · unfold TaskService.addTask TaskService.validateTaskText
    rw [if_pos (by omega)]
  · unfold TaskService.addTask TaskService.validateTaskText
    rw [if_neg (by omega), if_pos (by omega)]
  · unfold TaskService.addTask TaskService.validateTaskText
    rw [if_neg (by omega), if_neg (by omega)]
    simp [addTask, hread]

/-- Witness for C5: whitespace-only text is rejected; `"  hi  "` is trimmed,
stored and returned. -/
theorem c5_witness :
    TaskService.addTask .absent "   " "id1" sampleDate =
      (.error "Task text cannot be empty", .absent) ∧
    TaskService.addTask .absent "  hi  " "id1" sampleDate =
      (.ok ⟨"id1", TaskService.jsTrim "  hi  ", false, sampleDate⟩,
        saveTasks ([] ++ [⟨"id1", TaskService.jsTrim "  hi  ", false, sampleDate⟩])) :=
  ⟨(c5_addTask_validation .absent "   " "id1" sampleDate).1 (by decide),
    (c5_addTask_validation .absent "  hi  " "id1" sampleDate).2.2 [] rfl
      (by decide) (by decide)⟩

/-- C9 counterexample: the validating deserializer refuses records whose
`text` (or `id`) is empty, so a task collection containing such a task does
not round-trip even though its `createdAt` has millisecond precision. -/
theorem c9_counterexample :
    deserializeTask (serializeTask ⟨"x", "", false, sampleDate⟩) = none ∧
    deserializeTask (serializeTask ⟨"", "x", false, sampleDate⟩) = none := by
  refine ⟨by decide, by decide⟩

/-- C9 (amended): for every task collection whose tasks have non-empty `id`
and `text` and an in-range millisecond-precision `createdAt`, serializing and
then deserializing yields the original tasks, element by element and in the
same order. -/
theorem c9_roundtrip (ts : List Task)
    (h : ∀ t ∈ ts, 0 < t.id.length ∧ 0 < t.text.length ∧ t.createdAt.Valid) :
    (ts.map serializeTask).filterMap deserializeTask = ts ∧
    ∀ t ∈ ts, deserializeTask (serializeTask t) = some t := by
  have hpt : ∀ t ∈ ts, deserializeTask (serializeTask t) = some t := by
    intro t ht
    rw [deserializeTask_serializeTask, if_pos (h t ht)]
  refine ⟨?_, hpt⟩
  rw [List.filterMap_map]
  have hcong : ∀ a ∈ ts, (deserializeTask ∘ serializeTask) a = some a :=
    fun a ha => hpt a ha
  rw [List.filterMap_congr hcong]
  exact List.filterMap_some ts

/-- Witness for C9's amended theorem on a concrete two-task collection. -/
theorem c9_witness :
    ([taskA, taskB].map serializeTask).filterMap deserializeTask =
      [taskA, taskB] :=
  (c9_roundtrip [taskA, taskB] (by decide)).1

/-- The C4 invariant as a decidable predicate on the store: the ids of the
currently readable collection are pairwise distinct (vacuously true when the
read fails). -/
def idsUnique (st : Store) : Bool :=
  match getTasks st with
  | .ok ts => decide (ts.map Task.id).Nodup
  | .error _ => true

theorem nodup_ids_filter (p : Task → Bool) (l : List Task)
    (h : (l.map Task.id).Nodup) : ((l.filter p).map Task.id).Nodup :=
  List.Nodup.sublist ((List.filter_sublist l).map Task.id) h

theorem idsUnique_saveTasks (ts : List Task)
    (h : (ts.map Task.id).Nodup) : idsUnique (saveTasks ts) = true := by
  simp only [idsUnique, getTasks_saveTasks]
  exact decide_eq_true (nodup_ids_filter persistable ts h)

/-- When the update record carries no `id` field, the find-and-replace step
leaves the sequence of ids untouched. -/
theorem updateFirst_map_id (ts : List Task) (i : String) (u : TaskUpdates)
    (hu : u.id = none) (ut : Task) (ts' : List Task)
    (h : updateFirst ts i u = some (ut, ts')) :
    ts'.map Task.id = ts.map Task.id := by
  induction ts generalizing ts' with
  | nil => simp [updateFirst] at h
  | cons t rest ih =>
    simp only [updateFirst] at h
    by_cases ht : (t.id == i) = true
    · rw [if_pos ht] at h
      cases h
      simp [mergeTask, hu]
    · rw [if_neg ht] at h
      rcases hrest : updateFirst rest i u with _ | ⟨ut2, rest'⟩ <;>
        rw [hrest] at h
      · cases h
      · cases h
        simp [ih rest' hrest]

/-- C4 counterexample: the storage adapter never checks id uniqueness — two
`addTask` calls with the same id leave two tasks with that id in the stored
collection. -/
theorem c4_counterexample :
    getTasks (addTask (addTask Store.absent taskA).2 taskA2).2 =
      .ok [taskA, taskA2] ∧
    taskA.id = taskA2.id ∧ taskA ≠ taskA2 ∧
    idsUnique (addTask (addTask Store.absent taskA).2 taskA2).2 = false := by
  refine ⟨by decide, by decide, by decide, by decide⟩

/-- C4 (amended): id uniqueness is preserved — not enforced — by the adapter:
starting from a store with pairwise-distinct ids, `addTask` keeps them
distinct provided the added task's id is not already present, `updateTask`
keeps them distinct provided the update record carries no `id` field, and
`deleteTask` always keeps them distinct. -/
theorem c4_ids_unique_preserved (st : Store) (h : idsUnique st = true) :
    (∀ t : Task, (∀ ts, getTasks st = .ok ts → t.id ∉ ts.map Task.id) →
      idsUnique (addTask st t).2 = true) ∧
    (∀ i u, u.id = none → idsUnique (updateTask st i u).2 = true) ∧
    (∀ i, idsUnique (deleteTask st i).2 = true) := by
  rcases hread : getTasks st with e | ts
  · refine ⟨fun t ht => ?_, fun i u hu => ?_, fun i => ?_⟩ <;>
      simp_all [addTask, updateTask, deleteTask, hread]
  · have hnodup : (ts.map Task.id).Nodup := by
      unfold idsUnique at h
      rw [hread] at h
      exact of_decide_eq_true h
    refine ⟨fun t ht => ?_, fun i u hu => ?_, fun i => ?_⟩
    · simp only [addTask, hread]
      apply idsUnique_saveTasks
      rw [List.map_append]
      exact List.Nodup.append hnodup (List.nodup_singleton _)
        (by simpa using ht ts rfl)
    · simp only [updateTask, hread]
      rcases hupd : updateFirst ts i u with _ | ⟨ut, ts2⟩
      · simpa [idsUnique, hread] using h
      · apply idsUnique_saveTasks
        rw [updateFirst_map_id ts i u hu ut ts2 hupd]
        exact hnodup
    · simp only [deleteTask, hread]
      by_cases hlen : (ts.filter fun t => t.id != i).length = ts.length
      · simpa [hlen, idsUnique, hread] using h
      · simp only [if_neg hlen]
        exact idsUnique_saveTasks _ (nodup_ids_filter _ _ hnodup)

/-- Witness for C4's amended theorem: deleting from a distinct-id store keeps
ids distinct. -/
theorem c4_witness :
    idsUnique (saveTasks [taskA, taskB]) = true ∧
    idsUnique (deleteTask (saveTasks [taskA, taskB]) "a").2 = true :=
  ⟨by decide,
    (c4_ids_unique_preserved (saveTasks [taskA, taskB]) (by decide)).2.2 "a"⟩

end TodoApp
